import Mathlib

/-!
Verification of the macro parser and execution engine of the
policy-scraper-dashboard repository (src/scraper_engine.py).

The Python source is shallowly embedded:

* strings are Lean `String`s, manipulated through their `List Char` data;
  Python regular-expression behaviour is modelled by hand-written scanners
  that follow the backtracking semantics of the two concrete patterns used
  by the source, on the ASCII range (the source only ever feeds ASCII
  command text; Unicode categories of Python are not modelled);
* the Selenium driver, the clock and the filesystem are an oracle
  environment `Env`: each driver interaction is appended to a call log and
  its outcome (normal value, TimeoutException, or any other exception) is
  chosen by the environment;
* Python exceptions are an `Except` layer over the state; `try/except`
  blocks of the source become `pyTry`;
* the engine object state (`self.results`, `self.driver`) lives in
  `SimState`, together with the call log and a counter of `driver.quit`
  calls.
-/

/-! ## Character and string utilities (Python `str` operations, ASCII) -/

/-- The single-quote character, written by code so that no quote literal
appears in the file. -/
def quoteS : Char := Char.ofNat 39

/-- The double-quote character. -/
def quoteD : Char := Char.ofNat 34

/-- A one-character string made of the single-quote character. -/
def sqm : String := String.singleton quoteS

/-- Python regex `\w` on the ASCII range: letters, digits, underscore. -/
def isWordChar (c : Char) : Bool := c.isAlphanum || c = '_'

/-- Python `str.strip` whitespace on the ASCII range. -/
def isPySpace (c : Char) : Bool :=
  c = ' ' || c = '\t' || c = '\n' || c = '\r' || c = '\x0b' || c = '\x0c'

/-- Python `str.strip` over the character list. -/
def pyStripL (l : List Char) : List Char :=
  ((l.dropWhile isPySpace).reverse.dropWhile isPySpace).reverse

/-- Python `str.strip` on strings. -/
def pyStrip (s : String) : String := String.mk (pyStripL s.data)

/-- Python `str.split` on a newline character. -/
def splitNl : List Char → List (List Char)
  | [] => [[]]
  | c :: cs =>
      if c = '\n' then [] :: splitNl cs
      else
        match splitNl cs with
        | [] => [[c]]
        | g :: gs => (c :: g) :: gs

/-- Python `str.startswith`. -/
def pyStartsWith (s pre : String) : Bool := pre.data.isPrefixOf s.data

/-- Python `str.upper` on the ASCII range. -/
def upperStr (s : String) : String := String.mk (s.data.map Char.toUpper)

/-- Python `str.lower` on the ASCII range. -/
def lowerStr (s : String) : String := String.mk (s.data.map Char.toLower)

/-! ## The macro parser (`ScrapingEngine.parse_macro`)

The source matches `re.match(r"(\w+)\((.*?)\)", instruction)` after
stripping, then scans the parenthesised text with
`re.finditer(r"(\w+)=(['\"]?)(.*?)\2(?:,|$)", params_str)`.
The scanners below reproduce the backtracking behaviour of those two
patterns: `\w+` is greedy, so it matches the maximal word-character run,
which must be followed by the literal that comes next in the pattern;
`(.*?)` is non-greedy and `.` never matches a newline, so the parenthesis
pattern requires a closing parenthesis with no newline before it and stops
at the first one. -/

/-- Maximal `\w+` run at the front of the text. -/
def takeWord : List Char → List Char
  | [] => []
  | c :: cs => if isWordChar c then c :: takeWord cs else []

/-- What is left after the maximal `\w+` run. -/
def dropWord : List Char → List Char
  | [] => []
  | c :: cs => if isWordChar c then dropWord cs else c :: cs

/-- `(.*?)\)` after the opening parenthesis: the text up to the first
closing parenthesis, failing if a newline (which `.` cannot match) or the
end of the string comes first.  Returns the enclosed text and the rest. -/
def scanParen : List Char → Option (List Char × List Char)
  | [] => none
  | c :: cs =>
      if c = ')' then some ([], cs)
      else if c = '\n' then none
      else (scanParen cs).map (fun p => (c :: p.1, p.2))

/-- `(.*?)\2(?:,|$)` with the quote group bound to `q`: the shortest value
followed by the closing quote and then a comma (consumed) or the end.
Returns the value and the rest after the match. -/
def scanClose (q : Char) : List Char → Option (List Char × List Char)
  | [] => none
  | c :: cs =>
      if c = q && (cs = [] || cs.head? = some ',') then
        some ([], cs.tail)
      else
        (scanClose q cs).map (fun p => (c :: p.1, p.2))

/-- `(.*?)(?:,|$)` with an empty quote group: the value runs to the first
comma (consumed) or to the end of the string.  Never fails. -/
def scanUnquoted : List Char → List Char × List Char
  | [] => ([], [])
  | c :: cs =>
      if c = ',' then ([], cs)
      else
        let p := scanUnquoted cs
        (c :: p.1, p.2)

/-- One attempt of the parameter pattern at the front of the text:
`(\w+)=` then the optionally quoted value.  When the quote branch cannot
find a closing quote followed by a comma or the end, the regex backtracks
to an empty quote group and the quote character becomes part of an
unquoted value. -/
def tryKV (l : List Char) : Option (String × String × List Char) :=
  if (takeWord l).isEmpty then none
  else
    match dropWord l with
    | '=' :: r2 =>
        match r2 with
        | c :: r3 =>
            if c = quoteS || c = quoteD then
              match scanClose c r3 with
              | some p => some (String.mk (takeWord l), String.mk p.1, p.2)
              | none =>
                  some (String.mk (takeWord l), String.mk (scanUnquoted r2).1,
                    (scanUnquoted r2).2)
            else
              some (String.mk (takeWord l), String.mk (scanUnquoted r2).1,
                (scanUnquoted r2).2)
        | [] => some (String.mk (takeWord l), "", [])
    | _ => none

/-- `re.finditer` of the parameter pattern: scan left to right, at each
position try the pattern; a failed attempt advances one character, a
successful one continues after the matched text.  `fuel` bounds the
recursion and is always called with at least the length of the text. -/
def scanParamsF : Nat → List Char → List (String × String)
  | 0, _ => []
  | _ + 1, [] => []
  | fuel + 1, c :: cs =>
      match tryKV (c :: cs) with
      | some (k, v, rest) => (k, v) :: scanParamsF fuel rest
      | none => scanParamsF fuel cs

/-- All key=value matches of the parameter pattern, in source order. -/
def scanParams (l : List Char) : List (String × String) := scanParamsF l.length l

/-- A parsed instruction: the command name and the parameter matches in
source order.  Python stores them in a dict, so a later occurrence of a
key overwrites an earlier one; `getParam` reproduces that. -/
structure ParsedCommand where
  command : String
  params : List (String × String)
deriving DecidableEq, Repr

/-- `params.get(k)`: the value of the last match with key `k`. -/
def getParam (ps : List (String × String)) (k : String) : Option String :=
  (ps.reverse.find? (fun p => p.1 == k)).map Prod.snd

/-- `params.get(k, d)`. -/
def getParamD (ps : List (String × String)) (k d : String) : String :=
  (getParam ps k).getD d

/-- `ScrapingEngine.parse_macro`.  Strips the line; matches
`(\w+)\((.*?)\)` at the start (the end is NOT anchored, so trailing text
after the first closing parenthesis is ignored); uppercases the command;
scans the parenthesised text for parameters. -/
def parse_macro' (instruction : String) : Option ParsedCommand :=
  if (takeWord (pyStripL instruction.data)).isEmpty then none
  else
    match dropWord (pyStripL instruction.data) with
    | '(' :: r =>
        match scanParen r with
        | some p =>
            some { command := String.mk ((takeWord (pyStripL instruction.data)).map Char.toUpper),
                   params := if p.1.isEmpty then [] else scanParams p.1 }
        | none => none
    | _ => none

/-! ## Numeric conversions (`int(...)`, `float(...)`)

Only what the engine needs is modelled: whether the conversion succeeds
(base-10 text, optional sign; Python digit-group underscores and Unicode
digits are not modelled) and, for `int`, the value.  The numeric value of
a successful `float` conversion is kept as its stripped source text: no
claim depends on float arithmetic or formatting. -/

/-- Numeric value of a digit run. -/
def natOfDigits (l : List Char) : Nat :=
  l.foldl (fun n c => n * 10 + (c.toNat - 48)) 0

/-- `int(s)` for a string argument: `some` value or `none` for the
`ValueError` Python raises. -/
def pyInt? (s : String) : Option Int :=
  match pyStripL s.data with
  | [] => none
  | c :: rest =>
      if c = '+' then
        if !rest.isEmpty && rest.all Char.isDigit then some (natOfDigits rest) else none
      else if c = '-' then
        if !rest.isEmpty && rest.all Char.isDigit then some (-(natOfDigits rest : Int)) else none
      else if (c :: rest).all Char.isDigit then some (natOfDigits (c :: rest)) else none

/-- The mantissa of a float literal: `digits[.digits]` or `.digits`. -/
def mantOk (l : List Char) : Bool :=
  let intPart := l.takeWhile Char.isDigit
  match l.dropWhile Char.isDigit with
  | [] => !intPart.isEmpty
  | c :: frac => c = '.' && frac.all Char.isDigit && (!intPart.isEmpty || !frac.isEmpty)

/-- The exponent of a float literal: optional sign then digits. -/
def expOk (l : List Char) : Bool :=
  match l with
  | [] => false
  | c :: r =>
      if c = '+' || c = '-' then !r.isEmpty && r.all Char.isDigit
      else (c :: r).all Char.isDigit

/-- Mantissa with an optional `e`/`E` exponent. -/
def floatBody (l : List Char) : Bool :=
  match l.span (fun c => !(c = 'e' || c = 'E')) with
  | (m, []) => mantOk m
  | (m, _ :: ex) => mantOk m && expOk ex

/-- `float(s)`: `some` canonical text (the stripped input) or `none` for
the `ValueError` Python raises. -/
def pyFloat? (s : String) : Option String :=
  let t := pyStripL s.data
  let body := match t with
              | c :: r => if c = '+' || c = '-' then r else t
              | [] => []
  let lowerBody := body.map Char.toLower
  if lowerBody = "inf".data || lowerBody = "infinity".data || lowerBody = "nan".data then
    some (String.mk t)
  else if floatBody body then some (String.mk t)
  else none

/-! ## The driver oracle and the engine state

One run of `run_scraping_job` interacts with Selenium, the clock and the
filesystem.  Each interaction is a `DriverCall`; the environment decides,
per interaction (indexed by its position in the call log), whether it
returns normally, raises `TimeoutException`, or raises some other
exception.  `time.sleep` with the literal 1 and with a converted `WAIT`
duration is logged but modelled as never raising (Python raises only for
negative durations; no claim depends on that corner). -/

/-- A Python exception as the engine distinguishes them:
`TimeoutException` or anything else, with its `str(e)` text. -/
inductive PyExn where
  | timeout
  | other (msg : String)
deriving DecidableEq, Repr

/-- `str(e)`.  Selenium renders a `TimeoutException` with a fixed
`Message:` prefix; the exact text is irrelevant to every claim. -/
def exnStr : PyExn → String
  | .timeout => "Message: "
  | .other m => m

/-- Selenium `By` strategies as `click_element`/`extract_text` choose
them from the `type` parameter. -/
inductive ByKind where
  | css | xpath | byId | byClass
deriving DecidableEq, Repr

/-- One interaction with the browser session, the clock or the
filesystem, as recorded in the call log. -/
inductive DriverCall where
  | navigate (url : String)
  | waitClickable (k : ByKind) (selector : String)
  | waitPresent (k : ByKind) (selector : String)
  | clickElem
  | getText
  | runScript (script : String)
  | sleep (seconds : String)
  | pathExists (dir : String)
  | makeDirs (dir : String)
  | pageSource
  | writeFile (path : String)
deriving DecidableEq, Repr

/-- The outcome of one executed command, `{"status": ..., "message": ...}`
with the optional `"data"` and `"file"` keys some handlers add. -/
structure ActionResult where
  status : String
  message : String
  data : Option String := none
  file : Option String := none
deriving DecidableEq, Repr

/-- One entry of `self.results`: the synthetic navigation entry is a bare
result dict, an instruction entry is `{"instruction": ..., "result": ...}`. -/
inductive RunItem where
  | nav (r : ActionResult)
  | step (instruction : String) (result : ActionResult)
deriving DecidableEq, Repr

/-- Engine-and-world state threaded through a run: the driver-call log,
`self.results`, whether `self.driver` is set, and how many times
`driver.quit()` ran. -/
structure SimState where
  calls : List DriverCall := []
  results : List RunItem := []
  driverSet : Bool := false
  quitCount : Nat := 0
deriving DecidableEq, Repr

/-- The oracle for one run: whether `webdriver.Chrome(...)` raises (with
the text of the exception), the timestamp `save_html` would use in an
auto-generated name, and the outcome of the n-th driver interaction. -/
structure Env where
  setup : Option String
  timestamp : String
  respond : Nat → Except PyExn String

/-- Stateful, exception-throwing computations: Python code between
`try`/`except` boundaries. -/
def M (α : Type) : Type := SimState → Except PyExn α × SimState

instance : Monad M where
  pure a := fun s => (Except.ok a, s)
  bind m f := fun s =>
    match m s with
    | (Except.ok a, s1) => f a s1
    | (Except.error e, s1) => (Except.error e, s1)

/-- Raising a Python exception. -/
def throwPy {α : Type} (e : PyExn) : M α := fun s => (Except.error e, s)

/-- `try: body except ...: handler`, with the state changes made before
the exception kept, as in Python. -/
def pyTry {α : Type} (body : M α) (handler : PyExn → M α) : M α := fun s =>
  match body s with
  | (Except.ok a, s1) => (Except.ok a, s1)
  | (Except.error e, s1) => handler e s1

/-- Perform one driver interaction: log it and let the environment pick
its outcome. -/
def callD (env : Env) (c : DriverCall) : M String := fun s =>
  (env.respond s.calls.length, { s with calls := s.calls ++ [c] })

/-- `time.sleep`: logged, never raises (see the section comment). -/
def sleepFor (seconds : String) : M Unit := fun s =>
  (Except.ok (), { s with calls := s.calls ++ [DriverCall.sleep seconds] })

/-- `self.results.append(...)`. -/
def appendItem (it : RunItem) : M Unit := fun s =>
  (Except.ok (), { s with results := s.results ++ [it] })

/-- Read `self.results`. -/
def getResults : M (List RunItem) := fun s => (Except.ok s.results, s)

/-! ## Action handlers (`ScrapingMacros`) -/

/-- The `By` strategy chain shared by `click_element` and `extract_text`:
`selector_type.lower()` against css / xpath / id / class, anything else
falling back to css. -/
def byKindOf (selector_type : String) : ByKind :=
  if lowerStr selector_type = "css" then ByKind.css
  else if lowerStr selector_type = "xpath" then ByKind.xpath
  else if lowerStr selector_type = "id" then ByKind.byId
  else if lowerStr selector_type = "class" then ByKind.byClass
  else ByKind.css

/-- `ScrapingMacros.click_element`: wait for the element to be clickable,
click it; `TimeoutException` and other exceptions become error results. -/
def click_element (env : Env) (selector selector_type : String) : M ActionResult :=
  pyTry
    (do
      let _ ← callD env (DriverCall.waitClickable (byKindOf selector_type) selector)
      let _ ← callD env DriverCall.clickElem
      pure { status := "success", message := "Clicked element: " ++ selector })
    (fun e =>
      match e with
      | .timeout => pure { status := "error", message := "Timeout waiting for element: " ++ selector }
      | .other m => pure { status := "error", message := "Error clicking element: " ++ m })

/-- The `if`/`elif` chain of `ScrapingMacros.scroll_page` on the lowered
direction: four directions run their script, any other direction runs
nothing (the chain has no `else`). -/
def scrollAct (env : Env) (d : String) (px : Int) : M Unit :=
  if d = "down" then
    callD env (DriverCall.runScript ("window.scrollBy(0, " ++ toString px ++ ");")) >>= fun _ => pure ()
  else if d = "up" then
    callD env (DriverCall.runScript ("window.scrollBy(0, -" ++ toString px ++ ");")) >>= fun _ => pure ()
  else if d = "top" then
    callD env (DriverCall.runScript "window.scrollTo(0, 0);") >>= fun _ => pure ()
  else if d = "bottom" then
    callD env (DriverCall.runScript "window.scrollTo(0, document.body.scrollHeight);") >>= fun _ => pure ()
  else
    pure ()

/-- `ScrapingMacros.scroll_page`: default the pixel count when it is
`None`, run the scroll script matching `direction.lower()` (no branch
for any other direction), pause one second, report success; any
exception becomes an error result. -/
def scroll_page (env : Env) (direction : String) (pixels : Option Int) : M ActionResult :=
  pyTry
    (scrollAct env (lowerStr direction) (pixels.getD 500) >>= fun _ =>
     sleepFor "1" >>= fun _ =>
     pure { status := "success",
            message := "Scrolled " ++ direction ++ " by " ++ toString (pixels.getD 500) ++ "px" })
    (fun e => pure { status := "error", message := "Error scrolling: " ++ exnStr e })

/-- `ScrapingMacros.save_html`: pick the filename (auto-generated from the
timestamp and, when truthy, the job id), ensure the downloads directory,
write the page source; any exception becomes an error result.
`os.path.exists` is a driver call whose text "True" means the directory
exists; `os.path.join` is POSIX juxtaposition with a slash. -/
def save_html (env : Env) (filename : Option String) (job_id : Option String) : M ActionResult :=
  pyTry
    (let fname : String :=
      match filename with
      | some f => f
      | none =>
          let jobPart : String :=
            match job_id with
            | some j => if j = "" then "" else "job_" ++ j ++ "_"
            | none => ""
          jobPart ++ "scraped_" ++ env.timestamp ++ ".html"
     callD env (DriverCall.pathExists "downloads") >>= fun ex =>
     (if ex = "True" then pure ()
      else callD env (DriverCall.makeDirs "downloads") >>= fun _ => pure ()) >>= fun _ =>
     callD env DriverCall.pageSource >>= fun _ =>
     callD env (DriverCall.writeFile ("downloads/" ++ fname)) >>= fun _ =>
     pure { status := "success", message := "HTML saved to: " ++ ("downloads/" ++ fname),
            file := some ("downloads/" ++ fname) })
    (fun e => pure { status := "error", message := "Error saving HTML: " ++ exnStr e })

/-- `ScrapingMacros.wait_seconds`: sleep for the already-converted
duration (kept as text, see the oracle comment). -/
def wait_seconds (_env : Env) (seconds : String) : M ActionResult :=
  pyTry
    (do
      sleepFor seconds
      pure { status := "success", message := "Waited " ++ seconds ++ " seconds" })
    (fun e => pure { status := "error", message := "Error waiting: " ++ exnStr e })

/-- `ScrapingMacros.extract_text`: wait for the element to be present,
read its text into the `data` payload; `TimeoutException` and other
exceptions become error results. -/
def extract_text (env : Env) (selector selector_type : String) : M ActionResult :=
  pyTry
    (do
      let _ ← callD env (DriverCall.waitPresent (byKindOf selector_type) selector)
      let t ← callD env DriverCall.getText
      pure { status := "success", message := "Extracted text from " ++ selector,
             data := some t })
    (fun e =>
      match e with
      | .timeout => pure { status := "error", message := "Timeout waiting for element: " ++ selector }
      | .other m => pure { status := "error", message := "Error extracting text: " ++ m })

/-! ## The dispatcher (`ScrapingEngine.execute_instruction`) -/

/-- The fixed command table. -/
def knownCommands : List String :=
  ["CLICK_ELEMENT", "SCROLL_PAGE", "SAVE_HTML", "WAIT", "EXTRACT_TEXT"]

/-- Text of the `ValueError` from `int(s)`. -/
def intErrMsg (s : String) : String :=
  "invalid literal for int() with base 10: " ++ sqm ++ s ++ sqm

/-- Text of the `ValueError` from `float(s)`. -/
def floatErrMsg (s : String) : String :=
  "could not convert string to float: " ++ sqm ++ s ++ sqm

/-- The `try:` body and `except:` of `ScrapingEngine.execute_instruction`
once the line has parsed: dispatch on the command, convert the
`int`/`float` parameter conversions and anything else the body raises
into an error result naming the command. -/
def dispatchCmd (env : Env) (parsed : ParsedCommand) (job_id : Option String) :
    M ActionResult :=
      pyTry
        (if parsed.command = "CLICK_ELEMENT" then
          click_element env (getParamD parsed.params "selector" "")
            (getParamD parsed.params "type" "css")
        else if parsed.command = "SCROLL_PAGE" then
          match getParam parsed.params "pixels" with
          | none => scroll_page env (getParamD parsed.params "direction" "down") (some 500)
          | some pstr =>
              match pyInt? pstr with
              | some n => scroll_page env (getParamD parsed.params "direction" "down") (some n)
              | none => throwPy (PyExn.other (intErrMsg pstr))
        else if parsed.command = "SAVE_HTML" then
          save_html env (getParam parsed.params "filename") job_id
        else if parsed.command = "WAIT" then
          match getParam parsed.params "seconds" with
          | none => wait_seconds env "2"
          | some sstr =>
              match pyFloat? sstr with
              | some v => wait_seconds env v
              | none => throwPy (PyExn.other (floatErrMsg sstr))
        else if parsed.command = "EXTRACT_TEXT" then
          extract_text env (getParamD parsed.params "selector" "")
            (getParamD parsed.params "type" "css")
        else
          pure { status := "error", message := "Unknown command: " ++ parsed.command })
        (fun e =>
          pure { status := "error",
                 message := "Error executing " ++ parsed.command ++ ": " ++ exnStr e })

/-- `ScrapingEngine.execute_instruction`: parse the line (a failure is an
error result, not an exception), then run the dispatch body. -/
def execute_instruction (env : Env) (instruction : String) (job_id : Option String) :
    M ActionResult :=
  match parse_macro' instruction with
  | none => pure { status := "error", message := "Invalid instruction format: " ++ instruction }
  | some parsed => dispatchCmd env parsed job_id

/-! ## The run (`ScrapingEngine.run_scraping_job`) -/

/-- The aggregate dict `run_scraping_job` returns: `results := none`
models a dict without the `"results"` key (the setup-failure and
exception returns). -/
structure RunResult where
  status : String
  message : String
  results : Option (List RunItem)
deriving DecidableEq, Repr

/-- The read-only job snapshot `run_scraping_job` receives. -/
structure JobData where
  id : Option String
  url : String
  selenium_instructions : String
deriving DecidableEq, Repr

/-- The comment test of the execution loop: the line (already stripped)
starts with a hash or a double slash. -/
def isCommentLine (l : String) : Bool := pyStartsWith l "#" || pyStartsWith l "//"

/-- `[line.strip() for line in instructions.split('\n') if line.strip()]`. -/
def instrLines (txt : String) : List String :=
  ((splitNl txt.data).map (fun cs => String.mk (pyStripL cs))).filter (fun l => !(l == ""))

/-- The lines that can produce a step: stripped, non-empty, not comments. -/
def effectiveLines (txt : String) : List String :=
  (instrLines txt).filter (fun l => !isCommentLine l)

/-- The instruction loop: skip comment lines, execute and record each
other line, stop after the first error-status result. -/
def runLines (env : Env) (job_id : Option String) : List String → M Unit
  | [] => pure ()
  | line :: rest =>
      if isCommentLine line then
        runLines env job_id rest
      else
        execute_instruction env line job_id >>= fun result =>
        appendItem (RunItem.step line result) >>= fun _ =>
        if result.status = "error" then pure ()
        else runLines env job_id rest

/-- Python string interpolation of the optional job id. -/
def pyStrOfId : Option String → String
  | none => "None"
  | some j => j

/-- The `try:` body of `run_scraping_job`: navigate, record the synthetic
navigation entry, run the instruction lines when the text is truthy, and
build the success dict from `self.results`. -/
def tryBody (env : Env) (job : JobData) : M RunResult :=
  callD env (DriverCall.navigate job.url) >>= fun _ =>
  appendItem (RunItem.nav { status := "success", message := "Navigated to: " ++ job.url }) >>= fun _ =>
  (if job.selenium_instructions = "" then pure ()
   else runLines env job.id (instrLines job.selenium_instructions)) >>= fun _ =>
  getResults >>= fun rs =>
  pure { status := "success",
         message := "Scraping job " ++ pyStrOfId job.id ++ " completed",
         results := some rs }

/-- `ScrapingEngine.run_scraping_job` on a fresh engine: reset
`self.results`, set up the driver (an error return ends the run with the
setup dict and no `finally`), run the body, turn a propagated exception
into the error dict, and in `finally` quit the driver when it is set. -/
def run_scraping_job (env : Env) (job : JobData) : RunResult × SimState :=
  match env.setup with
  | some m =>
      ({ status := "error", message := "Failed to initialize WebDriver: " ++ m,
         results := none },
       { calls := [], results := [], driverSet := false, quitCount := 0 })
  | none =>
      let p := tryBody env job { calls := [], results := [], driverSet := true, quitCount := 0 }
      let s3 := if p.2.driverSet then { p.2 with quitCount := p.2.quitCount + 1 } else p.2
      match p.1 with
      | Except.ok r => (r, s3)
      | Except.error e =>
          ({ status := "error", message := "Error during scraping: " ++ exnStr e,
             results := none }, s3)

/-! ## The documentation accessor (`get_macro_documentation`) -/

/-- One entry of the documentation dict.  `syntax` and `example` are
reserved words in Lean, hence the `Str` suffixes. -/
structure DocEntry where
  description : String
  syntaxStr : String
  parameters : List (String × String)
  exampleStr : String
deriving DecidableEq, Repr

/-- `ScrapingEngine.get_macro_documentation`, with the quoted example
strings assembled around `sqm` (the single-quote character) so that no
quote literal appears in this file. -/
def get_macro_documentation : List (String × DocEntry) :=
  [("CLICK_ELEMENT",
    { description := "Clicks an element on the page",
      syntaxStr := "CLICK_ELEMENT(selector=" ++ sqm ++ "css_selector" ++ sqm ++ ", type=" ++ sqm ++ "css" ++ sqm ++ ")",
      parameters :=
        [("selector", "CSS selector, XPath, ID, or class name"),
         ("type", "Selector type: " ++ sqm ++ "css" ++ sqm ++ ", " ++ sqm ++ "xpath" ++ sqm ++ ", " ++ sqm ++ "id" ++ sqm ++ ", " ++ sqm ++ "class" ++ sqm ++ " (default: " ++ sqm ++ "css" ++ sqm ++ ")")],
      exampleStr := "CLICK_ELEMENT(selector=" ++ sqm ++ "button.submit" ++ sqm ++ ", type=" ++ sqm ++ "css" ++ sqm ++ ")" }),
   ("SCROLL_PAGE",
    { description := "Scrolls the page in the specified direction",
      syntaxStr := "SCROLL_PAGE(direction=" ++ sqm ++ "down" ++ sqm ++ ", pixels=500)",
      parameters :=
        [("direction", sqm ++ "down" ++ sqm ++ ", " ++ sqm ++ "up" ++ sqm ++ ", " ++ sqm ++ "top" ++ sqm ++ ", " ++ sqm ++ "bottom" ++ sqm ++ " (default: " ++ sqm ++ "down" ++ sqm ++ ")"),
         ("pixels", "Number of pixels to scroll (default: 500)")],
      exampleStr := "SCROLL_PAGE(direction=" ++ sqm ++ "down" ++ sqm ++ ", pixels=800)" }),
   ("SAVE_HTML",
    { description := "Saves the current page HTML to a file",
      syntaxStr := "SAVE_HTML(filename=" ++ sqm ++ "page.html" ++ sqm ++ ")",
      parameters :=
        [("filename", "Output filename (optional, auto-generated if not provided)")],
      exampleStr := "SAVE_HTML(filename=" ++ sqm ++ "scraped_data.html" ++ sqm ++ ")" }),
   ("WAIT",
    { description := "Waits for the specified number of seconds",
      syntaxStr := "WAIT(seconds=2)",
      parameters := [("seconds", "Number of seconds to wait (default: 2)")],
      exampleStr := "WAIT(seconds=5)" }),
   ("EXTRACT_TEXT",
    { description := "Extracts text from an element",
      syntaxStr := "EXTRACT_TEXT(selector=" ++ sqm ++ "css_selector" ++ sqm ++ ", type=" ++ sqm ++ "css" ++ sqm ++ ")",
      parameters :=
        [("selector", "CSS selector, XPath, ID, or class name"),
         ("type", "Selector type: " ++ sqm ++ "css" ++ sqm ++ ", " ++ sqm ++ "xpath" ++ sqm ++ ", " ++ sqm ++ "id" ++ sqm ++ ", " ++ sqm ++ "class" ++ sqm ++ " (default: " ++ sqm ++ "css" ++ sqm ++ ")")],
      exampleStr := "EXTRACT_TEXT(selector=" ++ sqm ++ "h1.title" ++ sqm ++ ", type=" ++ sqm ++ "css" ++ sqm ++ ")" })]

/-- The instruction steps of a result sequence, in order. -/
def stepsOf (items : List RunItem) : List (String × ActionResult) :=
  items.filterMap (fun it =>
    match it with
    | RunItem.nav _ => none
    | RunItem.step i r => some (i, r))

/-- The computation may raise, and its only state change is appending to
the call log. -/
def callsOnly {α : Type} (m : M α) : Prop :=
  ∀ s, ∃ out cs, m s = (out, { s with calls := s.calls ++ cs })

/-- The computation returns normally and its only state change is
appending to the call log. -/
def handlerOk {α : Type} (m : M α) : Prop :=
  ∀ s, ∃ a cs, m s = (Except.ok a, { s with calls := s.calls ++ cs })

/-- The result items contributed by a list of recorded steps. -/
def stepItems (steps : List (String × ActionResult)) : List RunItem :=
  steps.map (fun p => RunItem.step p.1 p.2)

/-- C1 counterexample: a job whose only instruction is
`CLICK_ELEMENT(selector='#missing')` on a page where the wait times out:
the recorded step has error status with the timeout message, yet the
returned run dict has status `"success"` — not the error status the
claim requires. -/
def envC1 : Env :=
  { setup := none, timestamp := "t",
    respond := fun n => if n = 1 then Except.error PyExn.timeout else Except.ok "" }

/-- The job of the C1 counterexample. -/
def jobC1 : JobData :=
  { id := some "12345", url := "http://example.com",
    selenium_instructions := "CLICK_ELEMENT(selector=" ++ sqm ++ "#missing" ++ sqm ++ ")" }

/-- C3 counterexample environment: the driver cannot be created. -/
def envC3 : Env :=
  { setup := some "boom", timestamp := "t", respond := fun _ => Except.ok "" }

/-- C3 job. -/
def jobC3 : JobData :=
  { id := some "1", url := "http://example.com",
    selenium_instructions := "WAIT(seconds=1)" }

/-- C3 all-paths witness environment: everything succeeds. -/
def envC3ok : Env :=
  { setup := none, timestamp := "t", respond := fun _ => Except.ok "v" }

/-- C6 witness environments. -/
def envC6ok : Env :=
  { setup := none, timestamp := "t",
    respond := fun n => if n = 1 then Except.error (PyExn.other "boom") else Except.ok "" }

/-- C6 witness environment with failing setup. -/
def envC6bad : Env :=
  { setup := some "no chrome", timestamp := "t", respond := fun _ => Except.ok "" }

/-- C6 witness job. -/
def jobC6 : JobData :=
  { id := some "9", url := "http://example.com",
    selenium_instructions := "EXTRACT_TEXT(selector=h1)" }

/-- C8 witness environment: every driver interaction succeeds. -/
def envC8 : Env :=
  { setup := none, timestamp := "t", respond := fun _ => Except.ok "v" }

/-- C8 witness job: blank lines and both comment styles interleaved with
two instructions. -/
def jobC8 : JobData :=
  { id := some "3", url := "http://example.com",
    selenium_instructions :=
      "# a comment\n\nWAIT(seconds=1)\n   \n// another\nSCROLL_PAGE(direction=down)" }

/-- C7 witness environment. -/
def envC7 : Env :=
  { setup := none, timestamp := "t", respond := fun _ => Except.ok "" }

/-- C10 witness environment. -/
def envC10 : Env :=
  { setup := none, timestamp := "t", respond := fun _ => Except.ok "" }

/-- The spec's shape, adjusted only as the counterexample forces: the
stripped line BEGINS with a name of one or more word characters
immediately followed by a literal opening parenthesis, and a closing
parenthesis follows on the same line (no newline before it); text after
that closing parenthesis is ignored rather than rejected. -/
def MacroShapeSpec (t : List Char) : Prop :=
  ∃ (w inner tail : List Char),
    t = w ++ '(' :: (inner ++ ')' :: tail) ∧ w ≠ [] ∧
    (∀ c ∈ w, isWordChar c = true) ∧ ')' ∉ inner ∧ '\n' ∉ inner

/-! ## Well-formed instruction lines (claim C5)

An argument as the spec's `NAME(k1=v1, k2=v2)` form writes it: a word
key, a value either wrapped in matching single or double quotes or bare.
`wfB` holds the conditions under which the permissive parameter regex
recovers the argument verbatim: the key is a non-empty word; the value
stays on one line and contains no closing parenthesis (which would end
the `(.*?)\)` group early); a quoted value does not contain its own
quote character; a bare value contains no comma and does not start with
a quote character. -/
structure Arg where
  key : String
  value : String
  quote : Option Char
deriving DecidableEq, Repr

/-- Well-formedness of one argument (see the section comment). -/
def Arg.wfB (a : Arg) : Bool :=
  !a.key.data.isEmpty && a.key.data.all isWordChar &&
  a.value.data.all (fun c => !(c == ')') && !(c == '\n')) &&
  (match a.quote with
   | some q => (q == quoteS || q == quoteD) && a.value.data.all (fun c => !(c == q))
   | none =>
       a.value.data.all (fun c => !(c == ',')) &&
       (match a.value.data with
        | [] => true
        | v :: _ => !(v == quoteS || v == quoteD)))

/-- The characters of one rendered argument: `key=value`, the value
wrapped in its quote character when it has one. -/
def Arg.renderL (a : Arg) : List Char :=
  a.key.data ++ '=' ::
    (match a.quote with
     | some q => q :: (a.value.data ++ [q])
     | none => a.value.data)

/-- The rendered argument list, separated by comma-space. -/
def innerArgs : List Arg → List Char
  | [] => []
  | [a] => a.renderL
  | a :: b :: t => a.renderL ++ ',' :: ' ' :: innerArgs (b :: t)

/-- The rendered instruction line `NAME(arg1, arg2, ...)`. -/
def renderInstr (name : String) (args : List Arg) : String :=
  String.mk (name.data ++ '(' :: (innerArgs args ++ [')']))

/-- C5 witness arguments: a quoted selector, a duplicate quoted
selector, and a bare type value. -/
def argsC5 : List Arg :=
  [{ key := "selector", value := "#go", quote := some quoteS },
   { key := "selector", value := "#second", quote := some quoteD },
   { key := "type", value := "css", quote := none }]

/-! ## Lemmas and claim theorems -/

/-! ## Proof infrastructure: how computations touch the state

The handlers and the dispatcher return normally and only ever append to
the call log; the loop additionally appends to `self.results`.  Two
predicates capture this, with composition lemmas for the monad
operations. -/

/-- Basic evaluation equations for the monad operations. -/
theorem pureM_def {α : Type} (a : α) (s : SimState) : (pure a : M α) s = (Except.ok a, s) := rfl

theorem bindM_def {α β : Type} (m : M α) (f : α → M β) (s : SimState) :
    (m >>= f) s =
      match m s with
      | (Except.ok a, s1) => f a s1
      | (Except.error e, s1) => (Except.error e, s1) := rfl

theorem pyTry_def {α : Type} (body : M α) (handler : PyExn → M α) (s : SimState) :
    pyTry body handler s =
      match body s with
      | (Except.ok a, s1) => (Except.ok a, s1)
      | (Except.error e, s1) => handler e s1 := rfl

theorem handlerOk.toCallsOnly {α : Type} {m : M α} (h : handlerOk m) : callsOnly m := by
  intro s
  obtain ⟨a, cs, hm⟩ := h s
  exact ⟨Except.ok a, cs, hm⟩

theorem callsOnly_pure {α : Type} (a : α) : callsOnly (pure a : M α) := by
  intro s
  exact ⟨Except.ok a, [], by simp [pureM_def]⟩

theorem handlerOk_pure {α : Type} (a : α) : handlerOk (pure a : M α) := by
  intro s
  exact ⟨a, [], by simp [pureM_def]⟩

theorem callsOnly_throwPy {α : Type} (e : PyExn) : callsOnly (throwPy e : M α) := by
  intro s
  exact ⟨Except.error e, [], by simp [throwPy]⟩

theorem callsOnly_callD (env : Env) (c : DriverCall) : callsOnly (callD env c) := by
  intro s
  exact ⟨env.respond s.calls.length, [c], rfl⟩

theorem callsOnly_sleepFor (d : String) : callsOnly (sleepFor d) := by
  intro s
  exact ⟨Except.ok (), [DriverCall.sleep d], rfl⟩

theorem callsOnly_bind {α β : Type} {m : M α} {f : α → M β}
    (hm : callsOnly m) (hf : ∀ a, callsOnly (f a)) : callsOnly (m >>= f) := by
  intro s
  obtain ⟨out, cs, hms⟩ := hm s
  match out with
  | Except.ok a =>
      obtain ⟨out2, cs2, hfs⟩ := hf a { s with calls := s.calls ++ cs }
      refine ⟨out2, cs ++ cs2, ?_⟩
      rw [bindM_def, hms]
      simp only [hfs]
      simp
  | Except.error e =>
      refine ⟨Except.error e, cs, ?_⟩
      rw [bindM_def, hms]

theorem callsOnly_ite {α : Type} (c : Prop) [Decidable c] {m m' : M α}
    (h : callsOnly m) (h' : callsOnly m') : callsOnly (if c then m else m') := by
  by_cases hc : c
  · simpa [hc]
  · simpa [hc]

theorem handlerOk_pyTry {α : Type} {body : M α} {handler : PyExn → M α}
    (hb : callsOnly body) (hh : ∀ e, handlerOk (handler e)) : handlerOk (pyTry body handler) := by
  intro s
  obtain ⟨out, cs, hbs⟩ := hb s
  match out with
  | Except.ok a =>
      refine ⟨a, cs, ?_⟩
      rw [pyTry_def, hbs]
  | Except.error e =>
      obtain ⟨a, cs2, hhs⟩ := hh e { s with calls := s.calls ++ cs }
      refine ⟨a, cs ++ cs2, ?_⟩
      rw [pyTry_def, hbs]
      simp only [hhs]
      simp

theorem click_element_handlerOk (env : Env) (sel ty : String) :
    handlerOk (click_element env sel ty) := by
  refine handlerOk_pyTry ?_ ?_
  · exact callsOnly_bind (callsOnly_callD env _)
      (fun _ => callsOnly_bind (callsOnly_callD env _) (fun _ => callsOnly_pure _))
  · intro e
    cases e <;> exact handlerOk_pure _

theorem scrollAct_callsOnly (env : Env) (d : String) (px : Int) :
    callsOnly (scrollAct env d px) := by
  unfold scrollAct
  refine callsOnly_ite _ (callsOnly_bind (callsOnly_callD env _) (fun _ => callsOnly_pure _)) ?_
  refine callsOnly_ite _ (callsOnly_bind (callsOnly_callD env _) (fun _ => callsOnly_pure _)) ?_
  refine callsOnly_ite _ (callsOnly_bind (callsOnly_callD env _) (fun _ => callsOnly_pure _)) ?_
  exact callsOnly_ite _ (callsOnly_bind (callsOnly_callD env _) (fun _ => callsOnly_pure _))
    (callsOnly_pure _)

theorem scroll_page_handlerOk (env : Env) (direction : String) (pixels : Option Int) :
    handlerOk (scroll_page env direction pixels) := by
  refine handlerOk_pyTry ?_ ?_
  · exact callsOnly_bind (scrollAct_callsOnly env _ _)
      (fun _ => callsOnly_bind (callsOnly_sleepFor _) (fun _ => callsOnly_pure _))
  · intro e
    exact handlerOk_pure _

theorem save_html_handlerOk (env : Env) (filename job_id : Option String) :
    handlerOk (save_html env filename job_id) := by
  refine handlerOk_pyTry ?_ ?_
  · refine callsOnly_bind (callsOnly_callD env _) (fun ex => ?_)
    refine callsOnly_bind
      (callsOnly_ite _ (callsOnly_pure _)
        (callsOnly_bind (callsOnly_callD env _) (fun _ => callsOnly_pure _))) (fun _ => ?_)
    exact callsOnly_bind (callsOnly_callD env _)
      (fun _ => callsOnly_bind (callsOnly_callD env _) (fun _ => callsOnly_pure _))
  · intro e
    exact handlerOk_pure _

theorem wait_seconds_handlerOk (env : Env) (seconds : String) :
    handlerOk (wait_seconds env seconds) := by
  refine handlerOk_pyTry ?_ ?_
  · exact callsOnly_bind (callsOnly_sleepFor _) (fun _ => callsOnly_pure _)
  · intro e
    exact handlerOk_pure _

theorem extract_text_handlerOk (env : Env) (sel ty : String) :
    handlerOk (extract_text env sel ty) := by
  refine handlerOk_pyTry ?_ ?_
  · exact callsOnly_bind (callsOnly_callD env _)
      (fun _ => callsOnly_bind (callsOnly_callD env _) (fun _ => callsOnly_pure _))
  · intro e
    cases e <;> exact handlerOk_pure _

theorem dispatchCmd_handlerOk (env : Env) (parsed : ParsedCommand) (jid : Option String) :
    handlerOk (dispatchCmd env parsed jid) := by
  unfold dispatchCmd
  refine handlerOk_pyTry ?_ (fun e => handlerOk_pure _)
  refine callsOnly_ite _ (click_element_handlerOk env _ _).toCallsOnly ?_
  refine callsOnly_ite _ ?_ ?_
  · split
    · exact (scroll_page_handlerOk env _ _).toCallsOnly
    · split
      · exact (scroll_page_handlerOk env _ _).toCallsOnly
      · exact callsOnly_throwPy _
  refine callsOnly_ite _ (save_html_handlerOk env _ _).toCallsOnly ?_
  refine callsOnly_ite _ ?_ ?_
  · split
    · exact (wait_seconds_handlerOk env _).toCallsOnly
    · split
      · exact (wait_seconds_handlerOk env _).toCallsOnly
      · exact callsOnly_throwPy _
  exact callsOnly_ite _ (extract_text_handlerOk env _ _).toCallsOnly (callsOnly_pure _)

theorem execute_instruction_handlerOk (env : Env) (line : String) (jid : Option String) :
    handlerOk (execute_instruction env line jid) := by
  unfold execute_instruction
  cases hp : parse_macro' line with
  | none => exact handlerOk_pure _
  | some parsed => exact dispatchCmd_handlerOk env parsed jid

/-- Master lemma for the instruction loop: it always returns normally,
appends exactly its recorded steps to `self.results` (and driver
interactions to the call log), the recorded instructions are an initial
segment of the non-comment lines in source order, every step before the
last has success status, and when the loop stopped early the last step
has error status. -/
theorem runLines_spec (env : Env) (jid : Option String) :
    ∀ (lines : List String) (s : SimState),
    ∃ (steps : List (String × ActionResult)) (cs : List DriverCall),
      runLines env jid lines s =
        (Except.ok (), { s with calls := s.calls ++ cs,
                                results := s.results ++ stepItems steps }) ∧
      steps.map Prod.fst = (lines.filter (fun l => !isCommentLine l)).take steps.length ∧
      (∀ p ∈ steps.dropLast, p.2.status ≠ "error") ∧
      (steps.length < (lines.filter (fun l => !isCommentLine l)).length →
        ∃ q, steps.getLast? = some q ∧ q.2.status = "error") := by
  intro lines
  induction lines with
  | nil =>
      intro s
      refine ⟨[], [], ?_, by simp, by simp, by simp⟩
      simp [runLines, pureM_def, stepItems]
  | cons line rest ih =>
      intro s
      by_cases hc : isCommentLine line
      · obtain ⟨steps, cs, hrun, hpre, hdrop, hlast⟩ := ih s
        refine ⟨steps, cs, ?_, ?_, hdrop, ?_⟩
        · rw [runLines, if_pos hc]
          exact hrun
        · simpa [List.filter_cons, hc] using hpre
        · simpa [List.filter_cons, hc] using hlast
      · obtain ⟨r, cs0, hexec⟩ := execute_instruction_handlerOk env line jid s
        have heval : runLines env jid (line :: rest) s =
            (if r.status = "error" then (pure () : M Unit) else runLines env jid rest)
              { s with calls := s.calls ++ cs0,
                       results := s.results ++ [RunItem.step line r] } := by
          rw [runLines, if_neg hc, bindM_def, hexec]
          rfl
        by_cases hr : r.status = "error"
        · refine ⟨[(line, r)], cs0, ?_, ?_, by simp, ?_⟩
          · rw [heval, if_pos hr, pureM_def]
            simp [stepItems]
          · simp [List.filter_cons, hc]
          · intro _
            exact ⟨(line, r), rfl, hr⟩
        · obtain ⟨steps', cs', hrun', hpre', hdrop', hlast'⟩ :=
            ih { s with calls := s.calls ++ cs0,
                        results := s.results ++ [RunItem.step line r] }
          refine ⟨(line, r) :: steps', cs0 ++ cs', ?_, ?_, ?_, ?_⟩
          · rw [heval, if_neg hr, hrun']
            simp [stepItems, List.append_assoc]
          · simpa [List.filter_cons, hc, List.take_succ_cons] using hpre'
          · intro p hp
            match steps', hp with
            | [], hp => simp at hp
            | b :: t, hp =>
                rw [List.dropLast_cons₂] at hp
                rcases List.mem_cons.mp hp with h1 | h2
                · rw [h1]; exact hr
                · exact hdrop' p h2
          · intro hlt
            have hlt' : steps'.length < (rest.filter (fun l => !isCommentLine l)).length := by
              simp [List.filter_cons, hc] at hlt
              omega
            obtain ⟨q, hq, hqe⟩ := hlast' hlt'
            refine ⟨q, ?_, hqe⟩
            match steps', hq with
            | b :: t, hq => rw [List.getLast?_cons_cons]; exact hq

/-- Evaluation through a bind whose first computation is known to
succeed. -/
theorem bind_ok {α β : Type} {m : M α} {f : α → M β} {s s' : SimState} {a : α}
    (h : m s = (Except.ok a, s')) : (m >>= f) s = f a s' := by
  rw [bindM_def, h]

/-- Evaluation through a bind whose first computation is known to
raise. -/
theorem bind_err {α β : Type} {m : M α} {f : α → M β} {s s' : SimState} {e : PyExn}
    (h : m s = (Except.error e, s')) : (m >>= f) s = (Except.error e, s') := by
  rw [bindM_def, h]

theorem getResults_def (s : SimState) : getResults s = (Except.ok s.results, s) := rfl

/-- Navigation raising ends the `try:` body with that exception and only
the navigate call logged. -/
theorem tryBody_nav_err (env : Env) (job : JobData) (e : PyExn)
    (h : env.respond 0 = Except.error e) :
    tryBody env job { calls := [], results := [], driverSet := true, quitCount := 0 } =
      (Except.error e,
       { calls := [DriverCall.navigate job.url], results := [], driverSet := true,
         quitCount := 0 }) := by
  unfold tryBody
  have hcall : callD env (DriverCall.navigate job.url)
      { calls := [], results := [], driverSet := true, quitCount := 0 } =
      (Except.error e,
       { calls := [DriverCall.navigate job.url], results := [], driverSet := true,
         quitCount := 0 }) := by
    simp [callD, h]
  rw [bind_err hcall]

/-- Navigation succeeding runs the loop: the body returns the success
dict around `self.results`, whose head is the synthetic navigation entry
followed by the recorded steps, which are an initial segment of the
effective (stripped, non-blank, non-comment) lines with the abort
properties of `runLines_spec`. -/
theorem tryBody_nav_ok (env : Env) (job : JobData) (v : String)
    (h : env.respond 0 = Except.ok v) :
    ∃ (steps : List (String × ActionResult)) (cs : List DriverCall),
      tryBody env job { calls := [], results := [], driverSet := true, quitCount := 0 } =
        (Except.ok
          { status := "success",
            message := "Scraping job " ++ pyStrOfId job.id ++ " completed",
            results := some (RunItem.nav
              { status := "success", message := "Navigated to: " ++ job.url } ::
              stepItems steps) },
         { calls := DriverCall.navigate job.url :: cs,
           results := RunItem.nav
              { status := "success", message := "Navigated to: " ++ job.url } ::
              stepItems steps,
           driverSet := true, quitCount := 0 }) ∧
      steps.map Prod.fst =
        (effectiveLines job.selenium_instructions).take steps.length ∧
      (∀ p ∈ steps.dropLast, p.2.status ≠ "error") ∧
      (steps.length < (effectiveLines job.selenium_instructions).length →
        ∃ q, steps.getLast? = some q ∧ q.2.status = "error") := by
  have hbody : (if job.selenium_instructions = "" then (pure () : M Unit)
                else runLines env job.id (instrLines job.selenium_instructions)) =
               runLines env job.id (instrLines job.selenium_instructions) := by
    by_cases hi : job.selenium_instructions = ""
    · rw [if_pos hi, hi]
      rfl
    · rw [if_neg hi]
  have hcall : callD env (DriverCall.navigate job.url)
      { calls := [], results := [], driverSet := true, quitCount := 0 } =
      (Except.ok v,
       { calls := [DriverCall.navigate job.url], results := [], driverSet := true,
         quitCount := 0 }) := by
    simp [callD, h]
  have happ : appendItem (RunItem.nav
      { status := "success", message := "Navigated to: " ++ job.url })
      { calls := [DriverCall.navigate job.url], results := [], driverSet := true,
        quitCount := 0 } =
      (Except.ok (),
       { calls := [DriverCall.navigate job.url],
         results := [RunItem.nav
           { status := "success", message := "Navigated to: " ++ job.url }],
         driverSet := true, quitCount := 0 }) := rfl
  obtain ⟨steps, cs, hrun, hpre, hdrop, hlast⟩ :=
    runLines_spec env job.id (instrLines job.selenium_instructions)
      { calls := [DriverCall.navigate job.url],
        results := [RunItem.nav
          { status := "success", message := "Navigated to: " ++ job.url }],
        driverSet := true, quitCount := 0 }
  refine ⟨steps, cs, ?_, hpre, hdrop, hlast⟩
  unfold tryBody
  rw [hbody, bind_ok hcall, bind_ok happ, bind_ok hrun, bind_ok (getResults_def _)]
  rfl

/-- Setup failure before the `try:` returns the setup dict as the run
result: no driver interaction, no results, no quit. -/
theorem run_setup_fail (env : Env) (job : JobData) (m : String)
    (h : env.setup = some m) :
    run_scraping_job env job =
      ({ status := "error", message := "Failed to initialize WebDriver: " ++ m,
         results := none },
       { calls := [], results := [], driverSet := false, quitCount := 0 }) := by
  unfold run_scraping_job
  rw [h]

/-- A navigation exception propagates to the `except:` branch; the
driver is still quit once. -/
theorem run_nav_fail (env : Env) (job : JobData) (e : PyExn)
    (hs : env.setup = none) (h : env.respond 0 = Except.error e) :
    run_scraping_job env job =
      ({ status := "error", message := "Error during scraping: " ++ exnStr e,
         results := none },
       { calls := [DriverCall.navigate job.url], results := [], driverSet := true,
         quitCount := 1 }) := by
  unfold run_scraping_job
  rw [hs]
  simp only [tryBody_nav_err env job e h]
  simp

/-- The normal path: setup and navigation succeed, the loop records its
steps, the run reports success (whatever the step outcomes), and the
driver is quit once. -/
theorem run_nav_ok (env : Env) (job : JobData) (v : String)
    (hs : env.setup = none) (h : env.respond 0 = Except.ok v) :
    ∃ (steps : List (String × ActionResult)) (cs : List DriverCall),
      run_scraping_job env job =
        ({ status := "success",
           message := "Scraping job " ++ pyStrOfId job.id ++ " completed",
           results := some (RunItem.nav
             { status := "success", message := "Navigated to: " ++ job.url } ::
             stepItems steps) },
         { calls := DriverCall.navigate job.url :: cs,
           results := RunItem.nav
             { status := "success", message := "Navigated to: " ++ job.url } ::
             stepItems steps,
           driverSet := true, quitCount := 1 }) ∧
      steps.map Prod.fst =
        (effectiveLines job.selenium_instructions).take steps.length ∧
      (∀ p ∈ steps.dropLast, p.2.status ≠ "error") ∧
      (steps.length < (effectiveLines job.selenium_instructions).length →
        ∃ q, steps.getLast? = some q ∧ q.2.status = "error") := by
  obtain ⟨steps, cs, hrun, hpre, hdrop, hlast⟩ := tryBody_nav_ok env job v h
  refine ⟨steps, cs, ?_, hpre, hdrop, hlast⟩
  unfold run_scraping_job
  rw [hs]
  simp only [hrun]
  simp

/-- Instruction steps of a pure step-item list. -/
theorem stepsOf_stepItems (steps : List (String × ActionResult)) :
    stepsOf (stepItems steps) = steps := by
  induction steps with
  | nil => rfl
  | cons p t ih =>
      cases p
      simp only [stepsOf, stepItems, List.map_cons, List.filterMap_cons] at ih ⊢
      rw [ih]

/-- The synthetic navigation entry contributes no step. -/
theorem stepsOf_nav_cons (r : ActionResult) (l : List RunItem) :
    stepsOf (RunItem.nav r :: l) = stepsOf l := by
  simp [stepsOf, List.filterMap_cons]

/-- Lines that survive the filter are non-blank and not comments. -/
theorem mem_effectiveLines {txt l : String} (h : l ∈ effectiveLines txt) :
    l ≠ "" ∧ pyStartsWith l "#" = false ∧ pyStartsWith l "//" = false := by
  unfold effectiveLines at h
  obtain ⟨h1, h2⟩ := List.mem_filter.mp h
  unfold instrLines at h1
  obtain ⟨-, h3⟩ := List.mem_filter.mp h1
  refine ⟨by simpa using h3, ?_⟩
  unfold isCommentLine at h2
  simpa using h2

/-! ## Claim theorems on the execution engine -/

/-- C1 (amended): the status of the dict `run_scraping_job` returns is
`"success"` exactly when the driver was set up and navigation returned
normally; the outcomes of the recorded instruction steps play no part in
it.  (The claim as frozen — error status when any step failed — is
refuted by `run_click_timeout_reports_success` below.) -/
theorem run_status_success_iff (env : Env) (job : JobData) :
    (run_scraping_job env job).1.status = "success" ↔
      (env.setup = none ∧ ∃ v, env.respond 0 = Except.ok v) := by
  constructor
  · intro hsucc
    cases hsetup : env.setup with
    | some m =>
        rw [run_setup_fail env job m hsetup] at hsucc
        simp at hsucc
    | none =>
        cases hresp : env.respond 0 with
        | error e =>
            rw [run_nav_fail env job e hsetup hresp] at hsucc
            simp at hsucc
        | ok v => exact ⟨rfl, v, rfl⟩
  · rintro ⟨hsetup, v, hresp⟩
    obtain ⟨steps, cs, hrun, -, -, -⟩ := run_nav_ok env job v hsetup hresp
    rw [hrun]

/-- C1 counterexample: the run whose single instruction times out
returns overall status `"success"` while its one recorded step has error
status and a timeout message. -/
theorem run_click_timeout_reports_success :
    (run_scraping_job envC1 jobC1).1.status = "success" ∧
    stepsOf (run_scraping_job envC1 jobC1).2.results =
      [("CLICK_ELEMENT(selector=" ++ sqm ++ "#missing" ++ sqm ++ ")",
        { status := "error", message := "Timeout waiting for element: #missing" })] ∧
    (run_scraping_job envC1 jobC1).1.results =
      some (run_scraping_job envC1 jobC1).2.results := by
  refine ⟨rfl, rfl, rfl⟩

/-- C2 (confirmed): on every run, the recorded instruction steps are, in
order, an initial segment of the effective (stripped, non-blank,
non-comment) lines of the job text, every recorded step before the last
one has non-error status (so nothing is ever recorded after the first
error step), and whenever the returned dict carries a result list it is
exactly the recorded sequence. -/
theorem run_steps_order_and_abort (env : Env) (job : JobData) :
    ∃ steps : List (String × ActionResult),
      stepsOf (run_scraping_job env job).2.results = steps ∧
      steps.map Prod.fst =
        (effectiveLines job.selenium_instructions).take steps.length ∧
      (∀ p ∈ steps.dropLast, p.2.status ≠ "error") ∧
      (∀ items, (run_scraping_job env job).1.results = some items →
        items = (run_scraping_job env job).2.results) := by
  cases hsetup : env.setup with
  | some m =>
      refine ⟨[], ?_, by simp, by simp, ?_⟩
      · rw [run_setup_fail env job m hsetup]
        rfl
      · intro items hit
        rw [run_setup_fail env job m hsetup] at hit
        simp at hit
  | none =>
      cases hresp : env.respond 0 with
      | error e =>
          refine ⟨[], ?_, by simp, by simp, ?_⟩
          · rw [run_nav_fail env job e hsetup hresp]
            rfl
          · intro items hit
            rw [run_nav_fail env job e hsetup hresp] at hit
            simp at hit
      | ok v =>
          obtain ⟨steps, cs, hrun, hpre, hdrop, hlast⟩ := run_nav_ok env job v hsetup hresp
          refine ⟨steps, ?_, hpre, hdrop, ?_⟩
          · rw [hrun]
            rw [stepsOf_nav_cons, stepsOf_stepItems]
          · intro items hit
            rw [hrun] at hit ⊢
            simp only [Option.some.injEq] at hit
            exact hit.symm

/-- C3 counterexample: on the session-setup-failure path the returned
dict has status and message but no result sequence at all (the claim
says every returned RunResult carries the ordered sequence). -/
theorem run_setup_fail_has_no_results :
    run_scraping_job envC3 jobC3 =
      ({ status := "error", message := "Failed to initialize WebDriver: boom",
         results := none },
       { calls := [], results := [], driverSet := false, quitCount := 0 }) := by
  rfl

/-- C3 (amended): the returned dict always carries a status and a
message; it carries the ordered result sequence — headed by the
synthetic navigation entry — exactly on the path where setup and
navigation succeeded, and carries no sequence on the setup-failure and
propagated-exception paths. -/
theorem run_result_shape (env : Env) (job : JobData) :
    (∀ m, env.setup = some m →
      (run_scraping_job env job).1 =
        { status := "error", message := "Failed to initialize WebDriver: " ++ m,
          results := none }) ∧
    (∀ e, env.setup = none → env.respond 0 = Except.error e →
      (run_scraping_job env job).1 =
        { status := "error", message := "Error during scraping: " ++ exnStr e,
          results := none }) ∧
    (∀ v, env.setup = none → env.respond 0 = Except.ok v →
      ∃ rest, (run_scraping_job env job).1 =
        { status := "success",
          message := "Scraping job " ++ pyStrOfId job.id ++ " completed",
          results := some (RunItem.nav
            { status := "success", message := "Navigated to: " ++ job.url } :: rest) }) := by
  refine ⟨?_, ?_, ?_⟩
  · intro m hm
    rw [run_setup_fail env job m hm]
  · intro e hs he
    rw [run_nav_fail env job e hs he]
  · intro v hs hv
    obtain ⟨steps, cs, hrun, -, -, -⟩ := run_nav_ok env job v hs hv
    exact ⟨stepItems steps, by rw [hrun]⟩

/-- C3 witness: the amended shape instantiated on the setup-failure path
and on the success path at concrete inputs. -/
theorem run_result_shape_witness :
    (run_scraping_job envC3 jobC3).1 =
      { status := "error", message := "Failed to initialize WebDriver: boom",
        results := none } ∧
    ∃ rest, (run_scraping_job envC3ok jobC3).1 =
      { status := "success", message := "Scraping job 1 completed",
        results := some (RunItem.nav
          { status := "success",
            message := "Navigated to: http://example.com" } :: rest) } :=
  ⟨(run_result_shape envC3 jobC3).1 "boom" rfl,
   (run_result_shape envC3ok jobC3).2.2 "v" rfl rfl⟩

/-- C6 (confirmed): the `finally:` block quits the driver exactly once
on every run where setup succeeded — success, step failure, or an
exception propagating out of navigation or execution alike — and zero
times when setup failed, in which case no driver interaction happened,
nothing ran, and the setup error is the returned message. -/
theorem session_released_exactly_once (env : Env) (job : JobData) :
    ((run_scraping_job env job).2.quitCount = if env.setup = none then 1 else 0) ∧
    (∀ m, env.setup = some m →
      (run_scraping_job env job).2 =
        { calls := [], results := [], driverSet := false, quitCount := 0 } ∧
      (run_scraping_job env job).1.status = "error" ∧
      (run_scraping_job env job).1.message = "Failed to initialize WebDriver: " ++ m) := by
  constructor
  · cases hsetup : env.setup with
    | some m =>
        rw [run_setup_fail env job m hsetup]
        simp [hsetup]
    | none =>
        cases hresp : env.respond 0 with
        | error e =>
            rw [run_nav_fail env job e hsetup hresp]
            simp [hsetup]
        | ok v =>
            obtain ⟨steps, cs, hrun, -, -, -⟩ := run_nav_ok env job v hsetup hresp
            rw [hrun]
            simp [hsetup]
  · intro m hm
    rw [run_setup_fail env job m hm]
    exact ⟨rfl, rfl, rfl⟩

/-- C6 witness: one release on a run whose step raised, zero releases
and an empty call log when setup failed. -/
theorem session_released_exactly_once_witness :
    (run_scraping_job envC6ok jobC6).2.quitCount = 1 ∧
    (run_scraping_job envC6bad jobC6).2.quitCount = 0 ∧
    (run_scraping_job envC6bad jobC6).2.calls = [] := by
  have h1 := (session_released_exactly_once envC6ok jobC6).1
  have h2 := (session_released_exactly_once envC6bad jobC6).1
  have h3 := ((session_released_exactly_once envC6bad jobC6).2 "no chrome" rfl).1
  refine ⟨?_, ?_, ?_⟩
  · simpa [envC6ok] using h1
  · simpa [envC6bad] using h2
  · rw [h3]

/-- C8 (confirmed): when setup and navigation succeed, every recorded
step comes from an effective line (never from a blank line or a `#` or
`//` comment line), the recorded steps are, one each and in order, an
initial segment of the effective lines, and the segment is proper only
when its last step carries error status (the abort rule). -/
theorem comments_and_blanks_never_execute (env : Env) (job : JobData) (v : String)
    (hs : env.setup = none) (hnav : env.respond 0 = Except.ok v) :
    ∃ steps : List (String × ActionResult),
      stepsOf (run_scraping_job env job).2.results = steps ∧
      steps.map Prod.fst =
        (effectiveLines job.selenium_instructions).take steps.length ∧
      (∀ p ∈ steps, p.1 ≠ "" ∧
        pyStartsWith p.1 "#" = false ∧ pyStartsWith p.1 "//" = false) ∧
      (steps.length < (effectiveLines job.selenium_instructions).length →
        ∃ q, steps.getLast? = some q ∧ q.2.status = "error") := by
  obtain ⟨steps, cs, hrun, hpre, hdrop, hlast⟩ := run_nav_ok env job v hs hnav
  refine ⟨steps, ?_, hpre, ?_, hlast⟩
  · rw [hrun]
    rw [stepsOf_nav_cons, stepsOf_stepItems]
  · intro p hp
    have hmem : p.1 ∈ effectiveLines job.selenium_instructions := by
      have h1 : p.1 ∈ steps.map Prod.fst := List.mem_map_of_mem _ hp
      rw [hpre] at h1
      exact List.take_subset _ _ h1
    exact mem_effectiveLines hmem

/-- C8 witness: the guarantees instantiated on a concrete job whose text
holds comments and blank lines. -/
theorem comments_and_blanks_never_execute_witness :
    ∃ steps : List (String × ActionResult),
      stepsOf (run_scraping_job envC8 jobC8).2.results = steps ∧
      steps.map Prod.fst =
        (effectiveLines jobC8.selenium_instructions).take steps.length ∧
      (∀ p ∈ steps, p.1 ≠ "" ∧
        pyStartsWith p.1 "#" = false ∧ pyStartsWith p.1 "//" = false) ∧
      (steps.length < (effectiveLines jobC8.selenium_instructions).length →
        ∃ q, steps.getLast? = some q ∧ q.2.status = "error") :=
  comments_and_blanks_never_execute envC8 jobC8 "v" rfl rfl

/-- C7 (confirmed): the dispatcher always returns an `ActionResult` and
never lets an exception escape; a parse failure yields the
invalid-format error result, an unknown command the unknown-command
error result, and a non-numeric `WAIT` seconds or `SCROLL_PAGE` pixels
value the conversion `ValueError` converted into an error result naming
the command. -/
theorem execute_instruction_never_raises (env : Env) (line : String)
    (jid : Option String) (s : SimState) :
    ∃ r s2, execute_instruction env line jid s = (Except.ok r, s2) ∧
      (parse_macro' line = none →
        r = { status := "error", message := "Invalid instruction format: " ++ line }) ∧
      (∀ pc, parse_macro' line = some pc → pc.command ∉ knownCommands →
        r = { status := "error", message := "Unknown command: " ++ pc.command }) ∧
      (∀ pc v, parse_macro' line = some pc → pc.command = "WAIT" →
        getParam pc.params "seconds" = some v → pyFloat? v = none →
        r = { status := "error",
              message := "Error executing WAIT: " ++ floatErrMsg v }) ∧
      (∀ pc v, parse_macro' line = some pc → pc.command = "SCROLL_PAGE" →
        getParam pc.params "pixels" = some v → pyInt? v = none →
        r = { status := "error",
              message := "Error executing SCROLL_PAGE: " ++ intErrMsg v }) := by
  obtain ⟨r, cs, hex⟩ := execute_instruction_handlerOk env line jid s
  have key : ∀ {u : ActionResult} {s3 : SimState},
      execute_instruction env line jid s = (Except.ok u, s3) → r = u := by
    intro u s3 h
    have h2 := hex.symm.trans h
    have h3 := congrArg Prod.fst h2
    simpa using h3
  refine ⟨r, _, hex, ?_, ?_, ?_, ?_⟩
  · intro hp
    apply key
    unfold execute_instruction
    rw [hp]
    rfl
  · intro pc hpc hnot
    simp [knownCommands] at hnot
    obtain ⟨h1, h2, h3, h4, h5⟩ := hnot
    apply key
    have hstep : execute_instruction env line jid = dispatchCmd env pc jid := by
      unfold execute_instruction
      rw [hpc]
    rw [hstep]
    unfold dispatchCmd
    rw [if_neg h1, if_neg h2, if_neg h3, if_neg h4, if_neg h5]
    rfl
  · intro pc v hpc hcmd hsec hfl
    apply key
    have hstep : execute_instruction env line jid = dispatchCmd env pc jid := by
      unfold execute_instruction
      rw [hpc]
    rw [hstep]
    unfold dispatchCmd
    rw [hcmd]
    simp only [hsec, hfl]
    rfl
  · intro pc v hpc hcmd hpix hint
    apply key
    have hstep : execute_instruction env line jid = dispatchCmd env pc jid := by
      unfold execute_instruction
      rw [hpc]
    rw [hstep]
    unfold dispatchCmd
    rw [hcmd]
    simp only [hpix, hint]
    rfl

/-- C7 witness: a `WAIT` with non-numeric seconds returns normally with
the conversion error converted to an error result. -/
theorem execute_instruction_never_raises_witness :
    ∃ r s2,
      execute_instruction envC7 "WAIT(seconds=abc)" (some "1")
        { calls := [], results := [], driverSet := true, quitCount := 0 } =
        (Except.ok r, s2) ∧
      r = { status := "error",
            message := "Error executing WAIT: " ++ floatErrMsg "abc" } := by
  obtain ⟨r, s2, h, -, -, hw, -⟩ :=
    execute_instruction_never_raises envC7 "WAIT(seconds=abc)" (some "1")
      { calls := [], results := [], driverSet := true, quitCount := 0 }
  exact ⟨r, s2, h, hw { command := "WAIT", params := [("seconds", "abc")] } "abc" rfl rfl rfl rfl⟩

/-- C9 (confirmed): the documentation table has exactly the five
supported commands as keys, in the dispatcher order, and every entry's
literal example string parses to a command equal to its key. -/
theorem documentation_keys_and_examples :
    get_macro_documentation.map Prod.fst = knownCommands ∧
    get_macro_documentation.map
        (fun e => (parse_macro' e.2.exampleStr).map (fun pc => pc.command)) =
      get_macro_documentation.map (fun e => some e.1) := by
  constructor <;> rfl

/-- C10 (confirmed): for a direction outside down/up/top/bottom
(case-insensitively), `scroll_page` runs no browser script at all — the
only logged interaction is the settle sleep — yet returns a success
result whose message claims a scroll of that direction by the pixel
amount. -/
theorem scroll_unknown_direction_no_script (env : Env) (direction : String)
    (pixels : Option Int) (s : SimState)
    (h : lowerStr direction ∉ (["down", "up", "top", "bottom"] : List String)) :
    scroll_page env direction pixels s =
      (Except.ok { status := "success",
                   message := "Scrolled " ++ direction ++ " by " ++
                     toString (pixels.getD 500) ++ "px" },
       { s with calls := s.calls ++ [DriverCall.sleep "1"] }) := by
  simp [List.mem_cons] at h
  obtain ⟨h1, h2, h3, h4⟩ := h
  unfold scroll_page scrollAct
  rw [if_neg h1, if_neg h2, if_neg h3, if_neg h4]
  rfl

/-- C10 witness: `SCROLL_PAGE` with direction `Sideways` and 250 pixels
logs only the sleep and claims success. -/
theorem scroll_unknown_direction_no_script_witness :
    scroll_page envC10 "Sideways" (some 250)
        { calls := [], results := [], driverSet := false, quitCount := 0 } =
      (Except.ok { status := "success", message := "Scrolled Sideways by 250px" },
       { calls := [DriverCall.sleep "1"], results := [], driverSet := false,
         quitCount := 0 }) := by
  exact scroll_unknown_direction_no_script envC10 "Sideways" (some 250)
    { calls := [], results := [], driverSet := false, quitCount := 0 } (by decide)

/-! ## Scanner lemmas and claim theorems on the parser -/

theorem takeWord_all : ∀ (l : List Char), ∀ c ∈ takeWord l, isWordChar c = true := by
  intro l
  induction l with
  | nil => intro c hc; simp [takeWord] at hc
  | cons x xs ih =>
      intro c hc
      by_cases hx : isWordChar x
      · rw [takeWord, if_pos hx] at hc
        rcases List.mem_cons.mp hc with h | h
        · rw [h]; exact hx
        · exact ih c h
      · rw [takeWord, if_neg hx] at hc
        simp at hc

theorem takeWord_dropWord : ∀ (l : List Char), takeWord l ++ dropWord l = l := by
  intro l
  induction l with
  | nil => rfl
  | cons x xs ih =>
      by_cases hx : isWordChar x
      · rw [takeWord, dropWord, if_pos hx, if_pos hx, List.cons_append, ih]
      · rw [takeWord, dropWord, if_neg hx, if_neg hx, List.nil_append]

theorem takeWord_append (w : List Char) (x : Char) (r : List Char)
    (hw : ∀ c ∈ w, isWordChar c = true) (hx : isWordChar x = false) :
    takeWord (w ++ x :: r) = w ∧ dropWord (w ++ x :: r) = x :: r := by
  induction w with
  | nil =>
      simp only [List.nil_append]
      rw [takeWord, dropWord, if_neg (by simp [hx]), if_neg (by simp [hx])]
      exact ⟨rfl, rfl⟩
  | cons a t ih =>
      have ha : isWordChar a = true := hw a (List.mem_cons_self a t)
      obtain ⟨ih1, ih2⟩ := ih (fun c hc => hw c (List.mem_cons_of_mem a hc))
      rw [List.cons_append, takeWord, dropWord, if_pos ha, if_pos ha, ih1, ih2]
      exact ⟨rfl, rfl⟩

theorem scanParen_append (inner tail : List Char)
    (h1 : ')' ∉ inner) (h2 : '\n' ∉ inner) :
    scanParen (inner ++ ')' :: tail) = some (inner, tail) := by
  induction inner with
  | nil =>
      rw [List.nil_append, scanParen, if_pos rfl]
  | cons c cs ih =>
      have hc1 : c ≠ ')' := fun h => h1 (h ▸ List.mem_cons_self c cs)
      have hc2 : c ≠ '\n' := fun h => h2 (h ▸ List.mem_cons_self c cs)
      rw [List.cons_append, scanParen, if_neg hc1, if_neg hc2,
        ih (fun h => h1 (List.mem_cons_of_mem c h))
           (fun h => h2 (List.mem_cons_of_mem c h))]
      rfl

theorem scanParen_sound : ∀ (l v rest : List Char), scanParen l = some (v, rest) →
    l = v ++ ')' :: rest ∧ ')' ∉ v ∧ '\n' ∉ v := by
  intro l
  induction l with
  | nil => intro v rest h; simp [scanParen] at h
  | cons c cs ih =>
      intro v rest h
      by_cases hc1 : c = ')'
      · rw [scanParen, if_pos hc1] at h
        simp only [Option.some.injEq, Prod.mk.injEq] at h
        obtain ⟨hv, hr⟩ := h
        subst hc1
        rw [← hv, ← hr]
        exact ⟨rfl, by simp, by simp⟩
      · by_cases hc2 : c = '\n'
        · rw [scanParen, if_neg hc1, if_pos hc2] at h
          simp at h
        · rw [scanParen, if_neg hc1, if_neg hc2] at h
          cases hs : scanParen cs with
          | none => rw [hs] at h; simp at h
          | some p =>
              rw [hs] at h
              have h' : some ((c :: p.1 : List Char), p.2) = some (v, rest) := h
              have h'' := Option.some.inj h'
              have hv : c :: p.1 = v := congrArg Prod.fst h''
              have hr : p.2 = rest := congrArg Prod.snd h''
              obtain ⟨h3, h4, h5⟩ := ih p.1 p.2 (by rw [hs])
              refine ⟨?_, ?_, ?_⟩
              · rw [← hv, ← hr, List.cons_append, ← h3]
              · rw [← hv]
                intro hmem
                rcases List.mem_cons.mp hmem with hx | hx
                · exact hc1 hx.symm
                · exact h4 hx
              · rw [← hv]
                intro hmem
                rcases List.mem_cons.mp hmem with hx | hx
                · exact hc2 hx.symm
                · exact h5 hx

/-- C4 (amended): the parser returns null exactly when the stripped line
does not begin with the `NAME(` shape closed by a later parenthesis —
rather than exactly when the whole line has the shape, since `re.match`
does not anchor the end (see `parse_trailing_text_not_none`); a line
with no parentheses, such as `NOT_A_MACRO`, parses to null. -/
theorem parse_none_iff_not_shape :
    (∀ s : String, parse_macro' s = none ↔ ¬ MacroShapeSpec (pyStripL s.data)) ∧
    parse_macro' "NOT_A_MACRO" = none := by
  constructor
  · intro s
    constructor
    · intro hnone hshape
      obtain ⟨w, inner, tail, ht, hw0, hwall, hpar, hnl⟩ := hshape
      obtain ⟨htw, hdw⟩ := takeWord_append w '(' (inner ++ ')' :: tail) hwall (by decide)
      unfold parse_macro' at hnone
      rw [ht, htw, hdw] at hnone
      rw [if_neg (by simp [hw0])] at hnone
      simp [scanParen_append inner tail hpar hnl] at hnone
    · intro hshape
      by_contra hne
      apply hshape
      unfold parse_macro' at hne
      cases hk : (takeWord (pyStripL s.data)).isEmpty with
      | true => rw [if_pos hk] at hne; exact absurd rfl hne
      | false =>
          rw [if_neg (by simp [hk])] at hne
          split at hne
          · rename_i r heq
            cases hs2 : scanParen r with
            | none => rw [hs2] at hne; exact absurd rfl hne
            | some p =>
                obtain ⟨h3, h4, h5⟩ := scanParen_sound r p.1 p.2 (by rw [hs2])
                refine ⟨takeWord (pyStripL s.data), p.1, p.2, ?_, ?_,
                  takeWord_all _, h4, h5⟩
                · have hsplit := takeWord_dropWord (pyStripL s.data)
                  rw [heq, h3] at hsplit
                  exact hsplit.symm
                · simp [hk, ← List.isEmpty_iff]
          · exact absurd rfl hne
  · rfl

/-- C4 counterexample: the claim says a line with extra text after the
closing parenthesis parses to null; in the code `re.match` is not
anchored at the end, so the line still parses. -/
theorem parse_trailing_text_not_none :
    parse_macro' "CLICK_ELEMENT(selector=x) trailing junk" =
      some { command := "CLICK_ELEMENT", params := [("selector", "x")] } := by
  rfl

theorem scanUnquoted_append (v tail : List Char) (hv : ',' ∉ v) :
    scanUnquoted (v ++ ',' :: tail) = (v, tail) := by
  induction v with
  | nil =>
      rw [List.nil_append, scanUnquoted, if_pos rfl]
  | cons c cs ih =>
      have hc : c ≠ ',' := fun h => hv (h ▸ List.mem_cons_self c cs)
      rw [List.cons_append, scanUnquoted, if_neg hc,
        ih (fun h => hv (List.mem_cons_of_mem c h))]

theorem scanUnquoted_all (v : List Char) (hv : ',' ∉ v) :
    scanUnquoted v = (v, []) := by
  induction v with
  | nil => rfl
  | cons c cs ih =>
      have hc : c ≠ ',' := fun h => hv (h ▸ List.mem_cons_self c cs)
      rw [scanUnquoted, if_neg hc, ih (fun h => hv (List.mem_cons_of_mem c h))]

theorem scanClose_append (q : Char) (v tail : List Char) (hq : q ∉ v) :
    scanClose q (v ++ q :: ',' :: tail) = some (v, tail) := by
  induction v with
  | nil =>
      rw [List.nil_append, scanClose, if_pos (by simp)]
      rfl
  | cons c cs ih =>
      have hc : c ≠ q := fun h => hq (h ▸ List.mem_cons_self c cs)
      rw [List.cons_append, scanClose, if_neg (by simp [hc]),
        ih (fun h => hq (List.mem_cons_of_mem c h))]
      rfl

theorem scanClose_last (q : Char) (v : List Char) (hq : q ∉ v) :
    scanClose q (v ++ [q]) = some (v, []) := by
  induction v with
  | nil =>
      rw [List.nil_append, scanClose, if_pos (by simp)]
      rfl
  | cons c cs ih =>
      have hc : c ≠ q := fun h => hq (h ▸ List.mem_cons_self c cs)
      rw [List.cons_append, scanClose, if_neg (by simp [hc]),
        ih (fun h => hq (List.mem_cons_of_mem c h))]
      rfl

theorem not_mem_of_all_ne {l : List Char} {x : Char}
    (h : l.all (fun c => !(c == x)) = true) : x ∉ l := by
  intro hmem
  have h2 := List.all_eq_true.mp h x hmem
  simp at h2

theorem tryKV_eval_quoted (l k : List Char) (q : Char) (r3 : List Char)
    (htw : takeWord l = k) (hk : k ≠ []) (hdw : dropWord l = '=' :: q :: r3)
    (hq : q = quoteS ∨ q = quoteD) :
    tryKV l =
      (match scanClose q r3 with
       | some p => some (String.mk k, String.mk p.1, p.2)
       | none => some (String.mk k, String.mk (scanUnquoted (q :: r3)).1,
           (scanUnquoted (q :: r3)).2)) := by
  unfold tryKV
  rw [htw, hdw, if_neg (by simp [hk])]
  rcases hq with h | h <;> subst h <;> rfl

theorem tryKV_eval_unquoted (l k : List Char) (c : Char) (r3 : List Char)
    (htw : takeWord l = k) (hk : k ≠ []) (hdw : dropWord l = '=' :: c :: r3)
    (hc1 : c ≠ quoteS) (hc2 : c ≠ quoteD) :
    tryKV l = some (String.mk k, String.mk (scanUnquoted (c :: r3)).1,
      (scanUnquoted (c :: r3)).2) := by
  unfold tryKV
  rw [htw, hdw, if_neg (by simp [hk])]
  show (if c = quoteS || c = quoteD then
          match scanClose c r3 with
          | some p => some (String.mk k, String.mk p.1, p.2)
          | none => some (String.mk k, String.mk (scanUnquoted (c :: r3)).1,
              (scanUnquoted (c :: r3)).2)
        else some (String.mk k, String.mk (scanUnquoted (c :: r3)).1,
          (scanUnquoted (c :: r3)).2)) = _
  rw [if_neg (by simp [hc1, hc2])]

theorem tryKV_eval_empty (l k : List Char)
    (htw : takeWord l = k) (hk : k ≠ []) (hdw : dropWord l = ['=']) :
    tryKV l = some (String.mk k, "", []) := by
  unfold tryKV
  rw [htw, hdw, if_neg (by simp [hk])]
  rfl

theorem Arg.wf_parts {a : Arg} (hw : a.wfB = true) :
    a.key.data ≠ [] ∧ (∀ c ∈ a.key.data, isWordChar c = true) ∧
    ')' ∉ a.value.data ∧ '\n' ∉ a.value.data := by
  simp only [Arg.wfB, Bool.and_eq_true] at hw
  obtain ⟨⟨⟨hk0, hkall⟩, hvc⟩, -⟩ := hw
  refine ⟨?_, List.all_eq_true.mp hkall, ?_, ?_⟩
  · intro h
    rw [h] at hk0
    simp at hk0
  · intro hmem
    have h2 := List.all_eq_true.mp hvc ')' hmem
    simp at h2
  · intro hmem
    have h2 := List.all_eq_true.mp hvc '\n' hmem
    simp at h2

theorem Arg.wf_quote {a : Arg} {q : Char} (hw : a.wfB = true) (hq : a.quote = some q) :
    (q = quoteS ∨ q = quoteD) ∧ q ∉ a.value.data := by
  simp only [Arg.wfB, hq, Bool.and_eq_true] at hw
  obtain ⟨-, hqq, hqv⟩ := hw
  refine ⟨by simpa using hqq, not_mem_of_all_ne hqv⟩

theorem Arg.wf_unquoted {a : Arg} (hw : a.wfB = true) (hq : a.quote = none) :
    ',' ∉ a.value.data ∧
    (∀ v vt, a.value.data = v :: vt → v ≠ quoteS ∧ v ≠ quoteD) := by
  simp only [Arg.wfB, hq, Bool.and_eq_true] at hw
  obtain ⟨-, hcomma, hhead⟩ := hw
  refine ⟨not_mem_of_all_ne hcomma, ?_⟩
  intro v vt hv
  rw [hv] at hhead
  simp at hhead
  exact hhead

theorem tryKV_mid (a : Arg) (rest : List Char) (hw : a.wfB = true) :
    tryKV (a.renderL ++ ',' :: rest) = some (a.key, a.value, rest) := by
  obtain ⟨hk0, hkw, -, -⟩ := Arg.wf_parts hw
  cases haq : a.quote with
  | some q =>
      obtain ⟨hqq, hqv⟩ := Arg.wf_quote hw haq
      have hr : a.renderL ++ ',' :: rest =
          a.key.data ++ '=' :: q :: (a.value.data ++ q :: ',' :: rest) := by
        rw [Arg.renderL, haq]
        simp [List.append_assoc]
      obtain ⟨htw, hdw⟩ := takeWord_append a.key.data '='
        (q :: (a.value.data ++ q :: ',' :: rest)) hkw (by decide)
      rw [hr, tryKV_eval_quoted _ a.key.data q (a.value.data ++ q :: ',' :: rest)
        htw hk0 hdw hqq]
      rw [scanClose_append q a.value.data rest hqv]
  | none =>
      obtain ⟨hcom, hhead⟩ := Arg.wf_unquoted hw haq
      cases hv : a.value.data with
      | nil =>
          have hr : a.renderL ++ ',' :: rest = a.key.data ++ '=' :: ',' :: rest := by
            rw [Arg.renderL, haq, hv]
            simp
          obtain ⟨htw, hdw⟩ := takeWord_append a.key.data '=' (',' :: rest) hkw (by decide)
          rw [hr, tryKV_eval_unquoted _ a.key.data ',' rest htw hk0 hdw
            (by decide) (by decide)]
          have hval : a.value = String.mk [] := by
            rw [← hv]
          rw [hval]
          rfl
      | cons v0 vt =>
          obtain ⟨hv1, hv2⟩ := hhead v0 vt hv
          have hr : a.renderL ++ ',' :: rest =
              a.key.data ++ '=' :: v0 :: (vt ++ ',' :: rest) := by
            rw [Arg.renderL, haq, hv]
            simp [List.append_assoc]
          obtain ⟨htw, hdw⟩ := takeWord_append a.key.data '='
            (v0 :: (vt ++ ',' :: rest)) hkw (by decide)
          rw [hr, tryKV_eval_unquoted _ a.key.data v0 (vt ++ ',' :: rest)
            htw hk0 hdw hv1 hv2]
          rw [show scanUnquoted (v0 :: (vt ++ ',' :: rest)) = (v0 :: vt, rest) from
            scanUnquoted_append (v0 :: vt) rest (hv ▸ hcom)]
          rw [← hv]

theorem tryKV_last (a : Arg) (hw : a.wfB = true) :
    tryKV a.renderL = some (a.key, a.value, []) := by
  obtain ⟨hk0, hkw, -, -⟩ := Arg.wf_parts hw
  cases haq : a.quote with
  | some q =>
      obtain ⟨hqq, hqv⟩ := Arg.wf_quote hw haq
      have hr : a.renderL = a.key.data ++ '=' :: q :: (a.value.data ++ [q]) := by
        rw [Arg.renderL, haq]
      obtain ⟨htw, hdw⟩ := takeWord_append a.key.data '='
        (q :: (a.value.data ++ [q])) hkw (by decide)
      rw [hr, tryKV_eval_quoted _ a.key.data q (a.value.data ++ [q]) htw hk0 hdw hqq]
      rw [scanClose_last q a.value.data hqv]
  | none =>
      obtain ⟨hcom, hhead⟩ := Arg.wf_unquoted hw haq
      cases hv : a.value.data with
      | nil =>
          have hr : a.renderL = a.key.data ++ ['='] := by
            rw [Arg.renderL, haq, hv]
          obtain ⟨htw, hdw⟩ := takeWord_append a.key.data '=' [] hkw (by decide)
          rw [hr, tryKV_eval_empty _ a.key.data htw hk0 hdw]
          have hval : a.value = String.mk [] := by
            rw [← hv]
          rw [hval]
      | cons v0 vt =>
          obtain ⟨hv1, hv2⟩ := hhead v0 vt hv
          have hr : a.renderL = a.key.data ++ '=' :: v0 :: vt := by
            rw [Arg.renderL, haq, hv]
          obtain ⟨htw, hdw⟩ := takeWord_append a.key.data '=' (v0 :: vt) hkw (by decide)
          rw [hr, tryKV_eval_unquoted _ a.key.data v0 vt htw hk0 hdw hv1 hv2]
          rw [show scanUnquoted (v0 :: vt) = (v0 :: vt, ([] : List Char)) from
            scanUnquoted_all (v0 :: vt) (hv ▸ hcom)]
          rw [← hv]

theorem scanParamsF_nil : ∀ f : Nat, scanParamsF f [] = [] := by
  intro f
  cases f <;> rfl

theorem scanParamsF_step (fuel : Nat) (l rest : List Char) (k v : String)
    (hne : l ≠ []) (h : tryKV l = some (k, v, rest)) :
    scanParamsF (fuel + 1) l = (k, v) :: scanParamsF fuel rest := by
  cases l with
  | nil => exact absurd rfl hne
  | cons c cs => rw [scanParamsF, h]

theorem tryKV_space (l : List Char) : tryKV (' ' :: l) = none := by
  unfold tryKV
  have h1 : takeWord (' ' :: l) = [] := by
    rw [takeWord, if_neg (by decide)]
  rw [h1]
  rfl

theorem scanParamsF_skip_space (fuel : Nat) (l : List Char) :
    scanParamsF (fuel + 1) (' ' :: l) = scanParamsF fuel l := by
  rw [scanParamsF, tryKV_space l]

theorem renderL_ne_nil (a : Arg) (_h : a.key.data ≠ []) : a.renderL ≠ [] := by
  rw [Arg.renderL]
  simp

/-- The parameter scanner on a rendered well-formed argument list
recovers exactly the arguments, in order, given enough fuel. -/
theorem scanParamsF_args : ∀ (args : List Arg) (fuel : Nat),
    (∀ a ∈ args, a.wfB = true) → (innerArgs args).length ≤ fuel →
    scanParamsF fuel (innerArgs args) = args.map (fun a => (a.key, a.value)) := by
  intro args
  induction args with
  | nil =>
      intro fuel _ _
      cases fuel <;> rfl
  | cons a rest ih =>
      intro fuel hwf hlen
      have hwa : a.wfB = true := hwf a (List.mem_cons_self a rest)
      have hkne : a.key.data ≠ [] := (Arg.wf_parts hwa).1
      have hrne : a.renderL ≠ [] := renderL_ne_nil a hkne
      have hrpos : 1 ≤ a.renderL.length := List.length_pos.mpr hrne
      cases rest with
      | nil =>
          have hlen1 : (innerArgs [a]).length = a.renderL.length := rfl
          cases fuel with
          | zero => omega
          | succ f =>
              rw [show innerArgs [a] = a.renderL from rfl,
                scanParamsF_step f a.renderL [] a.key a.value hrne (tryKV_last a hwa),
                scanParamsF_nil]
              rfl
      | cons b t =>
          have hinner : innerArgs (a :: b :: t) =
              a.renderL ++ ',' :: ' ' :: innerArgs (b :: t) := rfl
          have hlen2 : (innerArgs (a :: b :: t)).length =
              a.renderL.length + 2 + (innerArgs (b :: t)).length := by
            rw [hinner]
            simp
            omega
          cases fuel with
          | zero => exact absurd hlen (by omega)
          | succ f =>
              rw [hinner, scanParamsF_step f _ (' ' :: innerArgs (b :: t)) a.key a.value
                (by simp) (tryKV_mid a (' ' :: innerArgs (b :: t)) hwa)]
              cases f with
              | zero => exact absurd hlen (by omega)
              | succ f2 =>
                  rw [scanParamsF_skip_space f2 (innerArgs (b :: t))]
                  rw [ih f2 (fun x hx => hwf x (List.mem_cons_of_mem a hx)) (by omega)]
                  rfl

theorem word_not_space {c : Char} (h : isWordChar c = true) : isPySpace c = false := by
  by_contra hs
  rw [Bool.not_eq_false, isPySpace] at hs
  simp at hs
  rcases hs with (((((h1 | h1) | h1) | h1) | h1) | h1) <;> subst h1 <;>
    exact absurd h (by decide)

theorem renderL_not_mem (a : Arg) (hw : a.wfB = true) (x : Char)
    (hxw : isWordChar x = false) (hxe : x ≠ '=')
    (hxq : x ≠ quoteS ∧ x ≠ quoteD)
    (hxv : x ∉ a.value.data) : x ∉ a.renderL := by
  obtain ⟨-, hkw, -, -⟩ := Arg.wf_parts hw
  intro hmem
  have hmem' : x ∈ a.key.data ++ '=' ::
      (match a.quote with
       | some q => q :: (a.value.data ++ [q])
       | none => a.value.data) := hmem
  rcases List.mem_append.mp hmem' with h | h
  · exact absurd (hkw x h) (by simp [hxw])
  · rcases List.mem_cons.mp h with h2 | h2
    · exact hxe h2
    · cases haq : a.quote with
      | some q =>
          obtain ⟨hqq, -⟩ := Arg.wf_quote hw haq
          rw [haq] at h2
          have h2' : x ∈ q :: (a.value.data ++ [q]) := h2
          rcases List.mem_cons.mp h2' with h3 | h3
          · rcases hqq with hq | hq <;> rw [hq] at h3
            · exact hxq.1 h3
            · exact hxq.2 h3
          · rcases List.mem_append.mp h3 with h4 | h4
            · exact hxv h4
            · have h5 := List.mem_singleton.mp h4
              rcases hqq with hq | hq <;> rw [hq] at h5
              · exact hxq.1 h5
              · exact hxq.2 h5
      | none =>
          rw [haq] at h2
          have h2' : x ∈ a.value.data := h2
          exact hxv h2'

theorem innerArgs_not_mem (x : Char) (hxw : isWordChar x = false) (hxe : x ≠ '=')
    (hxq : x ≠ quoteS ∧ x ≠ quoteD) (hxc : x ≠ ',') (hxs : x ≠ ' ') :
    ∀ (args : List Arg), (∀ a ∈ args, a.wfB = true) →
    (∀ a ∈ args, x ∉ a.value.data) → x ∉ innerArgs args := by
  intro args
  induction args with
  | nil =>
      intro _ _ h
      simp [innerArgs] at h
  | cons a rest ih =>
      intro hwf hv
      cases rest with
      | nil =>
          exact renderL_not_mem a (hwf a (List.mem_cons_self a [])) x hxw hxe hxq
            (hv a (List.mem_cons_self a []))
      | cons b t =>
          intro hmem
          have hmem' : x ∈ a.renderL ++ ',' :: ' ' :: innerArgs (b :: t) := hmem
          rcases List.mem_append.mp hmem' with h | h
          · exact renderL_not_mem a (hwf a (List.mem_cons_self a _)) x hxw hxe hxq
              (hv a (List.mem_cons_self a _)) h
          · rcases List.mem_cons.mp h with h2 | h2
            · exact hxc h2
            · rcases List.mem_cons.mp h2 with h3 | h3
              · exact hxs h3
              · exact ih (fun y hy => hwf y (List.mem_cons_of_mem a hy))
                  (fun y hy => hv y (List.mem_cons_of_mem a hy)) h3

theorem pyStripL_id (c d : Char) (l1 l2 : List Char)
    (heq : c :: l1 = l2 ++ [d]) (hc : isPySpace c = false) (hd : isPySpace d = false) :
    pyStripL (c :: l1) = c :: l1 := by
  unfold pyStripL
  rw [List.dropWhile_cons, if_neg (by simp [hc])]
  rw [heq, List.reverse_append]
  simp only [List.reverse_cons, List.reverse_nil, List.nil_append, List.singleton_append]
  rw [List.dropWhile_cons, if_neg (by simp [hd])]
  have h2 : (d :: l2.reverse).reverse = l2 ++ [d] := by simp
  rw [h2, ← heq]

theorem getParam_last_wins (ps : List (String × String)) (k : String) :
    getParam ps k = ((ps.filter (fun p => p.1 == k)).getLast?).map Prod.snd := by
  induction ps using List.reverseRecOn with
  | nil => rfl
  | append_singleton t a ih =>
      rw [getParam, List.reverse_append]
      simp only [List.reverse_cons, List.reverse_nil, List.nil_append,
        List.singleton_append]
      by_cases hk : (a.1 == k) = true
      · rw [List.find?_cons_of_pos t.reverse (show (fun q => q.1 == k) a = true from hk),
          List.filter_append]
        simp [hk, List.getLast?_concat]
      · rw [List.find?_cons_of_neg t.reverse
          (show ¬((fun q => q.1 == k) a = true) from by simp [hk]), List.filter_append]
        simp only [List.filter_cons, hk, Bool.false_eq_true, if_false,
          List.filter_nil, List.append_nil]
        rw [getParam] at ih
        exact ih

/-- C5 (confirmed): a well-formed line `NAME(k1=v1, ..., kn=vn)` parses
to the command name uppercased and the literal key/value pairs in source
order with quotes stripped; the dict view of that pair list (`getParam`,
Python `params.get`) maps each key to the value of its LAST occurrence. -/
theorem parse_wellformed_line (name : String) (args : List Arg)
    (hn0 : name.data ≠ []) (hnw : ∀ c ∈ name.data, isWordChar c = true)
    (hargs : ∀ a ∈ args, a.wfB = true) :
    parse_macro' (renderInstr name args) =
      some { command := upperStr name,
             params := args.map (fun a => (a.key, a.value)) } ∧
    ∀ k, getParam (args.map (fun a => (a.key, a.value))) k =
      (((args.map (fun a => (a.key, a.value))).filter
        (fun p => p.1 == k)).getLast?).map Prod.snd := by
  refine ⟨?_, fun k => getParam_last_wins _ k⟩
  have hstrip : pyStripL (renderInstr name args).data =
      name.data ++ '(' :: (innerArgs args ++ [')']) := by
    show pyStripL (name.data ++ '(' :: (innerArgs args ++ [')'])) = _
    cases hn : name.data with
    | nil => exact absurd hn hn0
    | cons c nt =>
        have hcmem : c ∈ name.data := by
          rw [hn]
          exact List.mem_cons_self c nt
        have hc : isPySpace c = false := word_not_space (hnw c hcmem)
        show pyStripL (c :: (nt ++ '(' :: (innerArgs args ++ [')']))) = _
        rw [pyStripL_id c ')' (nt ++ '(' :: (innerArgs args ++ [')']))
          (c :: (nt ++ '(' :: innerArgs args)) (by simp) hc (by decide)]
        rfl
  obtain ⟨htw, hdw⟩ := takeWord_append name.data '(' (innerArgs args ++ [')'])
    hnw (by decide)
  have hpnp : ')' ∉ innerArgs args :=
    innerArgs_not_mem ')' (by decide) (by decide) ⟨by decide, by decide⟩
      (by decide) (by decide) args hargs
      (fun a ha => (Arg.wf_parts (hargs a ha)).2.2.1)
  have hpnn : '\n' ∉ innerArgs args :=
    innerArgs_not_mem '\n' (by decide) (by decide) ⟨by decide, by decide⟩
      (by decide) (by decide) args hargs
      (fun a ha => (Arg.wf_parts (hargs a ha)).2.2.2)
  unfold parse_macro'
  rw [hstrip, htw, hdw, if_neg (by simp [hn0])]
  show (match scanParen (innerArgs args ++ [')']) with
        | some p =>
            some ({ command := String.mk (name.data.map Char.toUpper),
                    params := if p.1.isEmpty then [] else scanParams p.1 } :
              ParsedCommand)
        | none => none) =
       some { command := upperStr name,
              params := args.map (fun a => (a.key, a.value)) }
  rw [scanParen_append (innerArgs args) [] hpnp hpnn]
  cases hargs0 : args with
  | nil => rfl
  | cons a rest =>
      have hwa : a.wfB = true := by
        apply hargs
        rw [hargs0]
        exact List.mem_cons_self a rest
      have hine : innerArgs (a :: rest) ≠ [] := by
        cases rest with
        | nil => exact renderL_ne_nil a (Arg.wf_parts hwa).1
        | cons b t =>
            show a.renderL ++ ',' :: ' ' :: innerArgs (b :: t) ≠ []
            simp
      show some ({ command := String.mk (name.data.map Char.toUpper),
                   params := if (innerArgs (a :: rest)).isEmpty then []
                             else scanParams (innerArgs (a :: rest)) } :
             ParsedCommand) =
           some ({ command := upperStr name,
                   params := (a :: rest).map (fun x => (x.key, x.value)) } :
             ParsedCommand)
      rw [if_neg (by simp [hine]), scanParams,
        scanParamsF_args (a :: rest) (innerArgs (a :: rest)).length
          (by rw [← hargs0]; exact hargs) (le_refl _)]
      rfl

/-- C5 witness: the concrete line renders, parses to the uppercased
command with all three matches in order, and the dict lookup of the
duplicated key returns the LAST occurrence. -/
theorem parse_wellformed_line_witness :
    parse_macro' (renderInstr "Click_Element" argsC5) =
      some { command := "CLICK_ELEMENT",
             params := [("selector", "#go"), ("selector", "#second"),
                        ("type", "css")] } ∧
    getParam [("selector", "#go"), ("selector", "#second"), ("type", "css")]
      "selector" = some "#second" := by
  have h := parse_wellformed_line "Click_Element" argsC5 (by decide) (by decide)
    (by decide)
  constructor
  · exact h.1
  · rfl
